import Mathlib

/-!
Shallow embedding of the batch-orchestration and report-consolidation core of
the automated-accessibility-checker repository.

The rule-evaluation engine (axe) is external: its result object
`{violations, passes, incomplete, inapplicable}` is modelled by `AxeResults`
below, each entry carrying the fields the exporters and summarizers read
(`id`, `description`, `help`, `helpUrl`, `impact`, `tags`, `nodes`).
JavaScript numbers that only ever hold small counts are modelled by `Nat`;
the one floating-point expression (`Math.round((passes/total)*100)` in
`PDFGenerator.calculateSummaryStats`) is modelled by exact rational
arithmetic, `jsRound` being round-half-up exactly as `Math.round` behaves on
the nonnegative values arising here.
-/

/-- One affected DOM node of a violation: axe node objects expose
`target` (selector list) and `html` (captured markup). -/
structure NodeResult where
  target : List String
  html : String
deriving DecidableEq, Repr

/-- One rule entry of an axe result (used for violations, passes, incomplete
and inapplicable alike).  `impact` is optional: axe omits it on non-violation
entries, which the JS code observes as `undefined`. -/
structure RuleResult where
  id : String
  description : String
  help : String
  helpUrl : String
  impact : Option String
  tags : List String
  nodes : List NodeResult
deriving DecidableEq, Repr

/-- The raw rule-engine result consumed by every formatter. -/
structure AxeResults where
  violations : List RuleResult
  passes : List RuleResult
  incomplete : List RuleResult
  inapplicable : List RuleResult
deriving DecidableEq, Repr

/-! ### JUnit export (`generateJUnitReport` in the backend server file) -/

/-- The `failure` object attached to a failed JUnit test case.
The source field `type` is spelled `failureType` here (`type` is reserved). -/
structure JUnitFailureInfo where
  message : String
  failureType : String
  text : String
deriving DecidableEq, Repr

/-- One `<testcase>` entry of the generated JUnit document. -/
structure JUnitTestCase where
  classname : String
  name : String
  failure : Option JUnitFailureInfo
deriving DecidableEq, Repr

/-- The JUnit document model: the `tests`/`failures` attributes emitted on
`<testsuites>`/`<testsuite>` plus the emitted test cases. -/
structure JUnitReport where
  tests : Nat
  failures : Nat
  testcases : List JUnitTestCase
deriving DecidableEq, Repr

/-- JS template-literal stringification of a possibly-undefined impact:
`undefined` interpolates as the string "undefined". -/
def jsInterp : Option String → String
  | some s => s
  | none => "undefined"

/-- Mirrors the violation branch of `generateJUnitReport`: one failed test
case per violation, its failure message carrying impact and description and
its text carrying the node count and help URL. -/
def violationTestCase (v : RuleResult) : JUnitTestCase :=
  { classname := "accessibility.violations"
    name := v.id ++ " - " ++ v.description
    failure := some
      { message := jsInterp v.impact ++ " violation: " ++ v.description
        failureType := "AssertionError"
        text := "Violation found on " ++ toString v.nodes.length ++
          " element(s). Help: " ++ v.helpUrl } }

/-- Mirrors the pass branch of `generateJUnitReport`: one passed test case
per passed rule, with no failure element. -/
def passTestCase (p : RuleResult) : JUnitTestCase :=
  { classname := "accessibility.passes"
    name := p.id ++ " - " ++ p.description
    failure := none }

/-- Mirrors `generateJUnitReport`: `tests = violations.length + passes.length`,
`failures = violations.length`, and the testcase list is the violation cases
followed by the pass cases (the XML serialization of these same values is a
rendering concern and not modelled). -/
def generateJUnitReport (results : AxeResults) : JUnitReport :=
  { tests := results.violations.length + results.passes.length
    failures := results.violations.length
    testcases := results.violations.map violationTestCase ++
      results.passes.map passTestCase }

/-- Number of test cases in the report that carry a failure element. -/
def emittedFailedCount (rep : JUnitReport) : Nat :=
  (rep.testcases.filter (fun tc => tc.failure.isSome)).length

/-- Number of (violation, node) pairs of a result — what the spec claims the
JUnit export emits one failed case for. -/
def violationNodePairCount (r : AxeResults) : Nat :=
  (r.violations.map (fun v => v.nodes.length)).sum

/-! ### SARIF export (`generateSARIFReport` / `mapImpactToLevel`) -/

/-- A JavaScript value as observable from the expression
`mapping[impact] || 'warning'`: one of the level strings stored in the
object literal, a member inherited from `Object.prototype` (a function —
or, for `__proto__`, the prototype object itself — in every case a truthy
non-string), or `undefined`. -/
inductive JsValue where
  | str (s : String)
  | inherited (name : String)
  | undefinedVal
deriving DecidableEq, Repr

/-- The property names every plain object literal inherits from
`Object.prototype`: reading any of them on `mapping` walks the prototype
chain and yields a truthy inherited value, not `undefined`. -/
def objectProtoProps : List String :=
  ["constructor", "hasOwnProperty", "isPrototypeOf", "propertyIsEnumerable",
   "toLocaleString", "toString", "valueOf", "__defineGetter__",
   "__defineSetter__", "__lookupGetter__", "__lookupSetter__", "__proto__"]

/-- The JS property read `mapping[impact]`, prototype chain included: the
four own keys hold the level strings; any other name that
`Object.prototype` provides yields the inherited member; everything else —
including an absent impact, whose property key stringifies to "undefined" —
is `undefined`. -/
def mappingLookup (impact : Option String) : JsValue :=
  match impact with
  | none => .undefinedVal
  | some s =>
    if s = "critical" then .str "error"
    else if s = "serious" then .str "error"
    else if s = "moderate" then .str "warning"
    else if s = "minor" then .str "note"
    else if s ∈ objectProtoProps then .inherited s
    else .undefinedVal

/-- JS truthiness of such a value: `undefined` is falsy, a string is truthy
when non-empty, inherited functions/objects are always truthy. -/
def JsValue.truthy : JsValue → Bool
  | .str s => s != ""
  | .inherited _ => true
  | .undefinedVal => false

/-- Mirrors `mapImpactToLevel`: `return mapping[impact] || 'warning'` — the
lookup result itself when truthy (which for a prototype-inherited member is
the member, not a level string), else the string "warning". -/
def mapImpactToLevel (impact : Option String) : JsValue :=
  let v := mappingLookup impact
  if v.truthy then v else .str "warning"

/-- One entry of `runs[0].results` in the SARIF document.  `level` carries
whatever value `mapImpactToLevel` produced. -/
structure SarifResult where
  ruleId : String
  level : JsValue
  uri : String
  snippet : String
deriving DecidableEq, Repr

/-- Mirrors the `results` array of `generateSARIFReport`: one entry per
violation node, its `level` derived from the violation impact. -/
def generateSARIFResults (results : AxeResults) (url : String) : List SarifResult :=
  results.violations.flatMap (fun violation =>
    violation.nodes.map (fun node =>
      { ruleId := violation.id
        level := mapImpactToLevel violation.impact
        uri := url
        snippet := node.html }))

/-! ### Executive summary (`PDFGenerator.calculateSummaryStats`) -/

/-- The severity counter object initialised to zero for the four impacts. -/
structure SeverityCounts where
  critical : Nat
  serious : Nat
  moderate : Nat
  minor : Nat
deriving DecidableEq, Repr

def initSeverityCounts : SeverityCounts :=
  { critical := 0, serious := 0, moderate := 0, minor := 0 }

/-- JS property read `severityCounts[impact]`: `none` models `undefined`
(unknown or absent impact key). -/
def severityLookup (sc : SeverityCounts) (impact : Option String) : Option Nat :=
  match impact with
  | none => none
  | some s =>
    if s = "critical" then some sc.critical
    else if s = "serious" then some sc.serious
    else if s = "moderate" then some sc.moderate
    else if s = "minor" then some sc.minor
    else none

/-- JS property update `severityCounts[impact] += n` for a known impact key. -/
def severityAdd (sc : SeverityCounts) (impact : Option String) (n : Nat) : SeverityCounts :=
  match impact with
  | none => sc
  | some s =>
    if s = "critical" then { sc with critical := sc.critical + n }
    else if s = "serious" then { sc with serious := sc.serious + n }
    else if s = "moderate" then { sc with moderate := sc.moderate + n }
    else if s = "minor" then { sc with minor := sc.minor + n }
    else sc

/-- Mirrors the accumulation body
`if (severityCounts[violation.impact]) { severityCounts[violation.impact] += violation.nodes.length; }`:
the guard is a JS truthiness test on the CURRENT counter value, so it is
skipped both when the key is absent (`undefined`) and when the counter still
holds `0` — which is its initial value. -/
def severityStep (sc : SeverityCounts) (v : RuleResult) : SeverityCounts :=
  match severityLookup sc v.impact with
  | some c => if c ≠ 0 then severityAdd sc v.impact v.nodes.length else sc
  | none => sc

def severityCountsOf (r : AxeResults) : SeverityCounts :=
  r.violations.foldl severityStep initSeverityCounts

/-- `totalRules` in `calculateSummaryStats`: rule counts of the four lists. -/
def totalRulesOf (r : AxeResults) : Nat :=
  r.violations.length + r.passes.length + r.incomplete.length + r.inapplicable.length

/-- `totalViolations` in `calculateSummaryStats`: the reduce summing node
counts over all violations. -/
def totalViolationNodes (r : AxeResults) : Nat :=
  r.violations.foldl (fun sum v => sum + v.nodes.length) 0

/-- Spec-side count of violation nodes of a given impact (the quantity the
spec's recommendation conditions are stated over). -/
def impactNodeCount (r : AxeResults) (impact : String) : Nat :=
  ((r.violations.filter (fun v => v.impact == some impact)).map
    (fun v => v.nodes.length)).sum

/-- Math.round on the nonnegative finite values arising here: round half
away from zero, i.e. round half up, modelled on exact rationals. -/
def jsRound (q : ℚ) : ℤ := ⌊q + 1 / 2⌋

/-- Mirrors `totalRules > 0 ? Math.round((passedTests / totalRules) * 100) : 100`. -/
def scoreOf (r : AxeResults) : ℤ :=
  if 0 < totalRulesOf r then
    jsRound (((r.passes.length : ℚ) / (totalRulesOf r : ℚ)) * 100)
  else 100

/-- Mirrors the grade cascade: start at "Needs Improvement", upgrade at the
70 / 85 / 95 thresholds. -/
def gradeOf (score : ℤ) : String :=
  if 95 ≤ score then "Excellent"
  else if 85 ≤ score then "Good"
  else if 70 ≤ score then "Fair"
  else "Needs Improvement"

/-- JS `tag.replace('-', ' ')`: only the FIRST dash is replaced. -/
def replaceFirstDashAux : List Char → List Char
  | [] => []
  | c :: cs => if c = '-' then ' ' :: cs else c :: replaceFirstDashAux cs

def replaceFirstDash (s : String) : String :=
  String.mk (replaceFirstDashAux s.toList)

/-- JS `s.startsWith(pre)`, character-structurally. -/
def jsStartsWith (s pre : String) : Bool :=
  pre.toList.isPrefixOf s.toList

/-- JS `s.trim()`: strip leading and trailing whitespace. -/
def jsTrim (s : String) : String :=
  String.mk (((s.toList.dropWhile Char.isWhitespace).reverse.dropWhile
    Char.isWhitespace).reverse)

/-- JS `s.toLowerCase()` on the ASCII names arising here. -/
def jsToLower (s : String) : String :=
  String.mk (s.toList.map Char.toLower)

/-- Category name extracted from a `cat.`-prefixed tag:
`tag.replace('cat.', '').replace('-', ' ')`.  Under the `startsWith`
guard the first occurrence of "cat." is the leading one, so the first
replace is dropping the four leading characters. -/
def categoryName (tag : String) : String :=
  replaceFirstDash (String.mk (tag.toList.drop 4))

/-- JS `categories[category] = (categories[category] || 0) + 1` on an object:
insertion-ordered counting. -/
def bumpCategory (cats : List (String × Nat)) (c : String) : List (String × Nat) :=
  if cats.any (fun p => p.1 == c) then
    cats.map (fun p => if p.1 == c then (p.1, p.2 + 1) else p)
  else cats ++ [(c, 1)]

/-- The category tally of `calculateSummaryStats`: every `cat.`-prefixed tag
of every violation bumps its category. -/
def categoryCounts (r : AxeResults) : List (String × Nat) :=
  r.violations.foldl (fun acc v =>
    v.tags.foldl (fun acc tag =>
      if jsStartsWith tag "cat." then bumpCategory acc (categoryName tag) else acc) acc) []

/-- JS `category.charAt(0).toUpperCase() + category.slice(1)`. -/
def capitalizeFirst (s : String) : String :=
  match s.toList with
  | [] => ""
  | c :: cs => String.mk (Char.toUpper c :: cs)

/-- Stable insertion by descending count, modelling the observable behaviour
of `.sort(([,a],[,b]) => b - a)` (Array.prototype.sort is stable). -/
def insertByCountDesc (x : String × Nat) : List (String × Nat) → List (String × Nat)
  | [] => [x]
  | y :: ys => if y.2 ≤ x.2 then x :: y :: ys else y :: insertByCountDesc x ys

def sortByCountDesc : List (String × Nat) → List (String × Nat)
  | [] => []
  | x :: xs => insertByCountDesc x (sortByCountDesc xs)

/-- `topCategories`: sort descending by count, keep the first 5, capitalize
the category name. -/
def topCategoriesOf (r : AxeResults) : List (String × Nat) :=
  ((sortByCountDesc (categoryCounts r)).take 5).map
    (fun p => (capitalizeFirst p.1, p.2))

/-- Mirrors the recommendation generation of `calculateSummaryStats`: the four
conditional pushes in order, then the positive-reinforcement line exactly when
the list stayed empty. -/
def recommendationsOf (r : AxeResults) : List String :=
  let sc := severityCountsOf r
  let tc := topCategoriesOf r
  let recs : List String :=
    (if 0 < sc.critical then
      ["Address " ++ toString sc.critical ++ " critical accessibility issues immediately"]
     else []) ++
    (if 0 < sc.serious then
      ["Fix " ++ toString sc.serious ++ " serious violations that impact user experience"]
     else []) ++
    (if 0 < r.incomplete.length then
      ["Review " ++ toString r.incomplete.length ++ " incomplete tests that require manual verification"]
     else []) ++
    (match tc.head? with
     | some p =>
        ["Focus on " ++ jsToLower p.1 ++ " improvements (" ++ toString p.2 ++ " issues)"]
     | none => [])
  if recs.isEmpty then
    ["Great job! Continue monitoring for accessibility regressions"]
  else recs

/-- The object returned by `calculateSummaryStats`. -/
structure SummaryStats where
  totalRules : Nat
  totalViolations : Nat
  severityCounts : SeverityCounts
  score : ℤ
  grade : String
  topCategories : List (String × Nat)
  recommendations : List String
deriving DecidableEq, Repr

def calculateSummaryStats (r : AxeResults) : SummaryStats :=
  { totalRules := totalRulesOf r
    totalViolations := totalViolationNodes r
    severityCounts := severityCountsOf r
    score := scoreOf r
    grade := gradeOf (scoreOf r)
    topCategories := topCategoriesOf r
    recommendations := recommendationsOf r }

/-! ### Batch run coordination (`/api/batch-test` background task)

The background task owns one browser session and iterates the URL list
sequentially.  What an individual page audit returns is external (navigation,
axe); it is modelled as an oracle value per URL: either a rule-engine result
or a thrown error message.  Per-URL mutations of the shared `batchProgress`
object (result push, counter increments, status string) happen in one
synchronous block with no intervening await, so one fold step per URL captures
every state observable through `/api/batch-status`. -/

/-- Outcome of the external page-audit pipeline for one URL. -/
inductive UrlAudit where
  | ok (results : AxeResults)
  | err (message : String)
deriving DecidableEq, Repr

def UrlAudit.isErr : UrlAudit → Bool
  | .ok _ => false
  | .err _ => true

/-- One entry of `batchProgress.results` (the per-URL summary object). -/
structure BatchResult where
  url : String
  status : String
  violations : Nat
  passes : Nat
  incomplete : Nat
  inapplicable : Nat
  error : Option String
deriving DecidableEq, Repr

/-- The mutable `batchProgress` record tracked per batch id. -/
structure BatchProgress where
  status : String
  totalUrls : Nat
  completedUrls : Nat
  failedUrls : Nat
  results : List BatchResult
deriving DecidableEq, Repr

/-- `batchProgress` as initialised before the background task starts. -/
def initBatchProgress (urls : List String) : BatchProgress :=
  { status := "running", totalUrls := urls.length, completedUrls := 0
    failedUrls := 0, results := [] }

/-- The summary pushed on a successful audit (`status: 'completed'`). -/
def successSummary (url : String) (res : AxeResults) : BatchResult :=
  { url := url, status := "completed", violations := res.violations.length
    passes := res.passes.length, incomplete := res.incomplete.length
    inapplicable := res.inapplicable.length, error := none }

/-- The `failedResult` pushed when the per-URL try block throws. -/
def failedSummary (url : String) (msg : String) : BatchResult :=
  { url := url, status := "failed", violations := 0, passes := 0
    incomplete := 0, inapplicable := 0, error := some msg }

/-- The per-URL loop body: push the summary, bump the counters (a failure
bumps `failedUrls` AND `completedUrls`), then rewrite the progress status. -/
def batchStep (bp : BatchProgress) (item : String × UrlAudit) : BatchProgress :=
  let bp :=
    match item.2 with
    | .ok res =>
        { bp with results := bp.results ++ [successSummary item.1 res]
                  completedUrls := bp.completedUrls + 1 }
    | .err msg =>
        { bp with results := bp.results ++ [failedSummary item.1 msg]
                  failedUrls := bp.failedUrls + 1
                  completedUrls := bp.completedUrls + 1 }
  { bp with status := "Completed " ++ toString bp.completedUrls ++ "/" ++
      toString bp.totalUrls ++ " URLs" }

/-- The summary object the loop body produces for one (url, audit) pair. -/
def batchOutcomeResult : String × UrlAudit → BatchResult
  | (url, .ok res) => successSummary url res
  | (url, .err msg) => failedSummary url msg

/-- State of `batchProgress` after the whole per-URL loop. -/
def runBatchLoop (items : List (String × UrlAudit)) : BatchProgress :=
  items.foldl batchStep (initBatchProgress (items.map Prod.fst))

/-- The `finally` block:
`batchProgress.status = failedUrls === totalUrls ? 'failed' : 'completed'`. -/
def finalizeBatch (bp : BatchProgress) : BatchProgress :=
  { bp with status := if bp.failedUrls = bp.totalUrls then "failed" else "completed" }

/-- The whole background task of `/api/batch-test` for a list of URLs with
their audit outcomes. -/
def runBatch (items : List (String × UrlAudit)) : BatchProgress :=
  finalizeBatch (runBatchLoop items)

/-- Snapshot of `batchProgress` observable after the first `i` URLs have been
processed (the states a `/api/batch-status` poller can see mid-run). -/
def batchStateAfter (items : List (String × UrlAudit)) (i : Nat) : BatchProgress :=
  (items.take i).foldl batchStep (initBatchProgress (items.map Prod.fst))

/-! ### CI bulk endpoint (`/api/ci/test-urls`) -/

/-- Request options of the CI bulk endpoint. -/
structure CiConfig where
  failOnViolations : Bool
  maxViolations : Nat
  continueOnFailure : Bool
deriving DecidableEq, Repr

/-- One entry of the `results` array: the per-URL summary pushed on a
completed audit, or the error record pushed when the audit throws. -/
inductive CiUrlResult where
  | tested (url : String) (success : Bool) (violations passes incomplete : Nat)
  | errored (url : String) (message : String)
deriving DecidableEq, Repr

def CiUrlResult.url : CiUrlResult → String
  | .tested u _ _ _ _ => u
  | .errored u _ => u

def CiUrlResult.success : CiUrlResult → Bool
  | .tested _ s _ _ _ => s
  | .errored _ _ => false

/-- `urlSuccess = !failOnViolations || violationCount <= maxViolations`. -/
def urlSuccessB (cfg : CiConfig) (res : AxeResults) : Bool :=
  !cfg.failOnViolations || decide (res.violations.length ≤ cfg.maxViolations)

/-- A URL audit counts as failed when it throws, or when the violation policy
marks it unsuccessful. -/
def auditFails (cfg : CiConfig) : UrlAudit → Bool
  | .ok res => !urlSuccessB cfg res
  | .err _ => true

/-- The per-URL loop of `/api/ci/test-urls`: push a result for each URL and
break after the first failed URL unless `continueOnFailure` is set (both in
the policy-failure branch and in the catch branch). -/
def ciLoop (cfg : CiConfig) : List (String × UrlAudit) → List CiUrlResult
  | [] => []
  | (url, audit) :: rest =>
    match audit with
    | .ok res =>
        let r := CiUrlResult.tested url (urlSuccessB cfg res)
          res.violations.length res.passes.length res.incomplete.length
        if !urlSuccessB cfg res && !cfg.continueOnFailure then [r]
        else r :: ciLoop cfg rest
    | .err msg =>
        let r := CiUrlResult.errored url msg
        if !cfg.continueOnFailure then [r]
        else r :: ciLoop cfg rest

/-- The `summary` object of the response: `totalUrls` is the request size,
`testedUrls` the number of produced results. -/
structure CiSummary where
  totalUrls : Nat
  testedUrls : Nat
  passedUrls : Nat
  failedUrls : Nat
deriving DecidableEq, Repr

def ciSummary (items : List (String × UrlAudit)) (results : List CiUrlResult) : CiSummary :=
  { totalUrls := items.length
    testedUrls := results.length
    passedUrls := (results.filter (fun r => r.success)).length
    failedUrls := (results.filter (fun r => !r.success)).length }

/-! ### Violation-table consolidation (`ReportGenerator`)

`optimizeViolationTables` works on rendered HTML: it slices each violation
table into `<tr>` rows, reads two cells of each row by regex, groups the rows
in a plain object keyed by the extracted fix-instruction text, and rebuilds
the table.  A table row is modelled structurally as its list of `<td>` cells;
a cell carries its inner text and the list of `<pre><code>` snippet blocks the
row regexes capture.  The regex
`/<td>[\s\S]*?<\/td>[\s\S]*?<td>([\s\S]*?)<\/td>/` captures (lazily) the
content of the SECOND cell, and `extractElementInfo` captures the first and
second snippet block of the FIRST cell. -/

/-- A table cell: its inner content and its `<pre><code>` snippet blocks. -/
structure Cell where
  content : String
  snippets : List String
deriving DecidableEq, Repr

/-- A data row of a violation table, as a list of cells. -/
structure Row where
  cells : List Cell
deriving DecidableEq, Repr

instance : Inhabited Row := ⟨{ cells := [] }⟩

/-- Location/source pair produced by `extractElementInfo`. -/
structure ElementInfo where
  location : String
  source : String
deriving DecidableEq, Repr

/-- Mirrors `extractFixInstructions`: the (trimmed) content of the second
cell, or the empty string when the row has fewer than two cells (a failed
regex match yields `''`). -/
def extractFixInstructions (row : Row) : String :=
  match row.cells.get? 1 with
  | some c => jsTrim c.content
  | none => ""

/-- Mirrors `extractElementInfo`: `location` is the first snippet block of the
first cell, `source` the second (each falling back to `''` when the regex
finds no match). -/
def extractElementInfo (row : Row) : ElementInfo :=
  match row.cells.get? 0 with
  | some c =>
    { location := (c.snippets.get? 0).getD ""
      source := (c.snippets.get? 1).getD "" }
  | none => { location := "", source := "" }

/-- A group of similar violation rows, as accumulated by
`groupSimilarViolations`: the shared fix-instruction key, the member rows,
their extracted element infos and the running count. -/
structure ViolationGroup where
  fixInstructions : String
  rows : List Row
  elements : List ElementInfo
  count : Nat
deriving DecidableEq, Repr

/-- One iteration of the `rows.forEach` body: create the keyed group on first
sight, then push the row, push its element info and bump the count. -/
def insertRowIntoGroups (gs : List ViolationGroup) (row : Row) : List ViolationGroup :=
  let k := extractFixInstructions row
  if gs.any (fun g => g.fixInstructions == k) then
    gs.map (fun g =>
      if g.fixInstructions == k then
        { g with rows := g.rows ++ [row]
                 elements := g.elements ++ [extractElementInfo row]
                 count := g.count + 1 }
      else g)
  else
    gs ++ [{ fixInstructions := k, rows := [row]
             elements := [extractElementInfo row], count := 1 }]

/-- Mirrors `groupSimilarViolations`: rows accumulate into a plain object
keyed by their fix-instruction text; `Object.values` returns the groups in
key-insertion order, modelled by an insertion-ordered list of groups. -/
def groupSimilarViolations (rows : List Row) : List ViolationGroup :=
  rows.foldl insertRowIntoGroups []

/-- A rendered data row of the rebuilt table: either the original row kept
verbatim (`count === 1`), or the consolidated row with its example element
infos and optional "+ N more similar elements" line. -/
inductive RenderedRow where
  | original (row : Row)
  | consolidated (count : Nat) (examples : List ElementInfo)
      (remainder : Option Int) (fixInstructions : String)
deriving DecidableEq, Repr

/-- Mirrors `createConsolidatedRow`: show the first 3 element infos; the
remainder line exists exactly when `group.count - 3` (a JS number, possibly
negative) is positive. -/
def createConsolidatedRow (g : ViolationGroup) : RenderedRow :=
  let remainingCount : Int := (g.count : Int) - 3
  .consolidated g.count (g.elements.take 3)
    (if 0 < remainingCount then some remainingCount else none)
    g.fixInstructions

/-- The per-group branch of the table rebuild in `optimizeViolationTables`:
a single-member group keeps its row as-is, larger groups render the
consolidated row. -/
def renderGroup (g : ViolationGroup) : RenderedRow :=
  if g.count = 1 then .original ((g.rows.get? 0).getD default)
  else createConsolidatedRow g

/-- The rebuilt data-row list of one violation table. -/
def optimizeViolationTable (rows : List Row) : List RenderedRow :=
  (groupSimilarViolations rows).map renderGroup

/-- The row list of an already-consolidated outcome: the member rows of the
produced groups, flattened in group order. -/
def regroupInput (rows : List Row) : List Row :=
  ((groupSimilarViolations rows).map ViolationGroup.rows).flatten

/-- Group with the given key over the given member rows (proof-side shorthand
for the fully-populated group record). -/
def mkGroup (key : String) (rows : List Row) : ViolationGroup :=
  { fixInstructions := key, rows := rows
    elements := rows.map extractElementInfo, count := rows.length }

/-- Proof-side canonical form of the grouping: peel off the first row's key
with all its later occurrences, recurse on the rest.  `gAux` is proved
extensionally equal to the accumulator-style `groupSimilarViolations`. -/
def gAux : List Row → List ViolationGroup
  | [] => []
  | r :: rs =>
    mkGroup (extractFixInstructions r)
        (r :: rs.filter (fun x => extractFixInstructions x == extractFixInstructions r)) ::
      gAux (rs.filter (fun x => extractFixInstructions x != extractFixInstructions r))
termination_by l => l.length
decreasing_by
  simp only [List.length_cons]
  exact Nat.lt_succ_of_le (List.length_filter_le _ _)

/-! ### Concrete example inputs used by counterexamples and witnesses -/

def emptyAxe : AxeResults :=
  { violations := [], passes := [], incomplete := [], inapplicable := [] }

def imgNode : NodeResult := { target := ["img"], html := "<img src=logo.png>" }

def imgAltRule : RuleResult :=
  { id := "image-alt", description := "Images must have alternate text"
    help := "Images must have alternate text"
    helpUrl := "https://dequeuniversity.com/rules/axe/4.10/image-alt"
    impact := some "critical", tags := ["wcag2a"], nodes := [imgNode] }

def labelRule : RuleResult :=
  { id := "label", description := "Form elements must have labels"
    help := "Form elements must have labels"
    helpUrl := "https://dequeuniversity.com/rules/axe/4.10/label"
    impact := some "serious", tags := ["wcag2a"]
    nodes := [{ target := ["input"], html := "<input type=text>" },
              { target := ["select"], html := "<select></select>" }] }

def passedRule : RuleResult :=
  { id := "document-title", description := "Documents must have a title"
    help := "Documents must have a title"
    helpUrl := "https://dequeuniversity.com/rules/axe/4.10/document-title"
    impact := none, tags := ["wcag2a"], nodes := [] }

/-- Failing input for the severity-count accumulation: one critical violation
with one node and no category tags. -/
def exCritical : AxeResults :=
  { violations := [imgAltRule], passes := [], incomplete := [], inapplicable := [] }

/-- A result with one 2-node violation and no passes: the JUnit export emits
one failed case for it, not two. -/
def exTwoNodes : AxeResults :=
  { violations := [labelRule], passes := [], incomplete := [], inapplicable := [] }

/-- A 3-URL batch where exactly the second URL throws. -/
def exBatch3 : List (String × UrlAudit) :=
  [("https://a.example", .ok emptyAxe),
   ("https://b.example", .err "page.goto: Timeout 30000ms exceeded."),
   ("https://c.example", .ok emptyAxe)]

/-- Witness input for the executive score: 1 violation, 3 passes. -/
def exScore : AxeResults :=
  { violations := [imgAltRule], passes := [passedRule, passedRule, passedRule]
    incomplete := [], inapplicable := [] }

/-- A CI bulk request whose second URL fails the violation policy. -/
def exCiItems : List (String × UrlAudit) :=
  [("https://a.example", .ok emptyAxe),
   ("https://b.example", .ok exTwoNodes),
   ("https://c.example", .ok emptyAxe)]

def exCiConfig : CiConfig :=
  { failOnViolations := true, maxViolations := 0, continueOnFailure := false }

/-- A table row with the given location/source snippets and fix text. -/
def mkRow (location source fix : String) : Row :=
  { cells := [{ content := location ++ " " ++ source, snippets := [location, source] },
              { content := fix, snippets := [] },
              { content := fix, snippets := [] }] }

/-- Four rows sharing one fix-instruction text plus one distinct row. -/
def exRows : List Row :=
  [mkRow "img:nth-child(1)" "<img src=a.png>" "Add an alt attribute",
   mkRow "img:nth-child(2)" "<img src=b.png>" "Add an alt attribute",
   mkRow "div > img" "<img src=c.png>" "Add an alt attribute",
   mkRow "footer img" "<img src=d.png>" "Add an alt attribute",
   mkRow "input.search" "<input type=text>" "Add a label element"]

instance : Inhabited ViolationGroup :=
  ⟨{ fixInstructions := "", rows := [], elements := [], count := 0 }⟩

/-- The 4-member group that `groupSimilarViolations` produces first on
`exRows`. -/
def exGroup : ViolationGroup := (groupSimilarViolations exRows).headI

/-! ## Theorems -/

/-- C10 counterexample: the claim says every input outside the four known
impacts yields "warning", but `mapping['toString']` finds the inherited
`Object.prototype.toString`, a truthy function, so
`mapping[impact] || 'warning'` returns that inherited member instead of
"warning". -/
theorem c10_counterexample :
    ("toString" : String) ∉ (["critical", "serious", "moderate", "minor"] : List String) ∧
    mapImpactToLevel (some "toString") ≠ JsValue.str "warning" :=
  ⟨by decide, by decide⟩

/-- C10 (amended): the impact-to-level mapping is a total function — it
never fails — with critical→error, serious→error, moderate→warning,
minor→note; an absent impact, and any other string that is not an
`Object.prototype` property name, yields the string "warning"; but a string
naming an inherited `Object.prototype` member makes the lookup yield that
truthy inherited member, which is returned in place of "warning". -/
theorem c10_impact_level_total :
    mapImpactToLevel (some "critical") = JsValue.str "error" ∧
    mapImpactToLevel (some "serious") = JsValue.str "error" ∧
    mapImpactToLevel (some "moderate") = JsValue.str "warning" ∧
    mapImpactToLevel (some "minor") = JsValue.str "note" ∧
    mapImpactToLevel none = JsValue.str "warning" ∧
    (∀ s : String,
      s ∉ (["critical", "serious", "moderate", "minor"] : List String) →
      s ∉ objectProtoProps →
      mapImpactToLevel (some s) = JsValue.str "warning") ∧
    (∀ s : String,
      s ∉ (["critical", "serious", "moderate", "minor"] : List String) →
      s ∈ objectProtoProps →
      mapImpactToLevel (some s) = JsValue.inherited s) := by
  refine ⟨rfl, rfl, rfl, rfl, rfl, ?_, ?_⟩
  · intro s hs hp
    simp only [List.mem_cons, List.not_mem_nil, or_false, not_or] at hs
    obtain ⟨h1, h2, h3, h4⟩ := hs
    simp [mapImpactToLevel, mappingLookup, JsValue.truthy, h1, h2, h3, h4, hp]
  · intro s hs hp
    simp only [List.mem_cons, List.not_mem_nil, or_false, not_or] at hs
    obtain ⟨h1, h2, h3, h4⟩ := hs
    simp [mapImpactToLevel, mappingLookup, JsValue.truthy, h1, h2, h3, h4, hp]

/-- Witness for C10: "fatal" is neither a known impact nor a prototype
property and maps to "warning", while "toString" is a prototype property
and maps to the inherited member. -/
theorem c10_impact_level_total_witness :
    (("fatal" : String) ∉ (["critical", "serious", "moderate", "minor"] : List String) ∧
     ("fatal" : String) ∉ objectProtoProps ∧
     mapImpactToLevel (some "fatal") = JsValue.str "warning") ∧
    (("toString" : String) ∉ (["critical", "serious", "moderate", "minor"] : List String) ∧
     ("toString" : String) ∈ objectProtoProps ∧
     mapImpactToLevel (some "toString") = JsValue.inherited "toString") :=
  ⟨⟨by decide, by decide,
    c10_impact_level_total.2.2.2.2.2.1 "fatal" (by decide) (by decide)⟩,
   ⟨by decide, by decide,
    c10_impact_level_total.2.2.2.2.2.2 "toString" (by decide) (by decide)⟩⟩

/-- C9: when no rule was evaluated at all, the score computation is guarded
against division by zero and returns score 100, hence grade Excellent. -/
theorem c9_zero_rules_score (r : AxeResults) (h : totalRulesOf r = 0) :
    (calculateSummaryStats r).score = 100 ∧
    (calculateSummaryStats r).grade = "Excellent" := by
  have hs : scoreOf r = 100 := by simp [scoreOf, h]
  exact ⟨hs, by simp [calculateSummaryStats, hs, gradeOf]⟩

/-- Witness for C9 at the empty result. -/
theorem c9_zero_rules_score_witness :
    totalRulesOf emptyAxe = 0 ∧
    ((calculateSummaryStats emptyAxe).score = 100 ∧
     (calculateSummaryStats emptyAxe).grade = "Excellent") :=
  ⟨rfl, c9_zero_rules_score emptyAxe rfl⟩

/-- C2 (code bug): on a result with one critical violation node the
severity-count accumulation leaves `severityCounts.critical` at 0 — the
JS guard `if (severityCounts[violation.impact])` is falsy at the initial
value 0, so no counter ever leaves 0 — and the recommendation list collapses
to the positive-reinforcement line instead of containing the urgent
remediation line the spec requires. -/
theorem c2_severity_guard_bug :
    impactNodeCount exCritical "critical" = 1 ∧
    (calculateSummaryStats exCritical).severityCounts.critical = 0 ∧
    (calculateSummaryStats exCritical).recommendations =
      ["Great job! Continue monitoring for accessibility regressions"] ∧
    ∀ r : AxeResults, severityCountsOf r = initSeverityCounts := by
  refine ⟨rfl, rfl, by decide, ?_⟩
  intro r
  suffices h : ∀ vs : List RuleResult, vs.foldl severityStep initSeverityCounts = initSeverityCounts by
    exact h r.violations
  intro vs
  induction vs with
  | nil => rfl
  | cons v vs ih =>
    have hstep : severityStep initSeverityCounts v = initSeverityCounts := by
      unfold severityStep severityLookup
      cases hi : v.impact with
      | none => rfl
      | some s =>
        by_cases h1 : s = "critical"
        · simp [h1, initSeverityCounts]
        · by_cases h2 : s = "serious"
          · simp [h1, h2, initSeverityCounts]
          · by_cases h3 : s = "moderate"
            · simp [h1, h2, h3, initSeverityCounts]
            · by_cases h4 : s = "minor"
              · simp [h1, h2, h3, h4, initSeverityCounts]
              · simp [h1, h2, h3, h4]
    rw [List.foldl_cons, hstep, ih]

/-- C3 counterexample: a result with a single 2-node violation produces one
failed JUnit test case, not one per violation-node pair. -/
theorem c3_counterexample :
    emittedFailedCount (generateJUnitReport exTwoNodes) ≠
      violationNodePairCount exTwoNodes := by decide

/-- C3 (amended): the JUnit export contains one failed test case per
violation (regardless of its node count) plus one passed test case per
passed rule, and the emitted `tests` and `failures` totals exactly equal the
number of emitted cases and the number of emitted failed cases. -/
theorem c3_junit_totals (results : AxeResults) :
    (generateJUnitReport results).testcases.length =
      results.violations.length + results.passes.length ∧
    emittedFailedCount (generateJUnitReport results) = results.violations.length ∧
    (generateJUnitReport results).tests =
      (generateJUnitReport results).testcases.length ∧
    (generateJUnitReport results).failures =
      emittedFailedCount (generateJUnitReport results) := by
  have hcount : emittedFailedCount (generateJUnitReport results) =
      results.violations.length := by
    unfold emittedFailedCount generateJUnitReport
    rw [List.filter_append, List.filter_map, List.filter_map]
    have hv : List.filter ((fun tc => tc.failure.isSome) ∘ violationTestCase)
        results.violations = results.violations :=
      List.filter_eq_self.mpr fun a _ => rfl
    have hp : List.filter ((fun tc => tc.failure.isSome) ∘ passTestCase)
        results.passes = [] := by
      induction results.passes with
      | nil => rfl
      | cons a l ih =>
        have ha : (((fun tc => tc.failure.isSome) ∘ passTestCase) a) = false := rfl
        rw [List.filter_cons, ha]
        simpa using ih
    rw [hv, hp]
    simp
  refine ⟨by simp [generateJUnitReport], hcount, by simp [generateJUnitReport], ?_⟩
  rw [hcount]
  rfl

/-- Characterization of the batch per-URL loop: each processed item adds one
to `completedUrls`, adds one to `failedUrls` exactly when its audit threw,
appends its summary to `results`, and never touches `totalUrls`. -/
theorem batch_foldl_spec (items : List (String × UrlAudit)) :
    ∀ init : BatchProgress,
    (items.foldl batchStep init).completedUrls = init.completedUrls + items.length ∧
    (items.foldl batchStep init).failedUrls =
      init.failedUrls + (items.filter (fun x => x.2.isErr)).length ∧
    (items.foldl batchStep init).results = init.results ++ items.map batchOutcomeResult ∧
    (items.foldl batchStep init).totalUrls = init.totalUrls := by
  induction items with
  | nil => intro init; simp
  | cons x xs ih =>
    intro init
    obtain ⟨h1, h2, h3, h4⟩ := ih (batchStep init x)
    obtain ⟨url, audit⟩ := x
    rw [List.foldl_cons]
    cases audit with
    | ok res =>
      refine ⟨?_, ?_, ?_, ?_⟩
      · rw [h1]; simp [batchStep]; omega
      · rw [h2]; simp [batchStep, UrlAudit.isErr]
      · rw [h3]; simp [batchStep, batchOutcomeResult]
      · rw [h4]; simp [batchStep]
    | err msg =>
      refine ⟨?_, ?_, ?_, ?_⟩
      · rw [h1]; simp [batchStep]; omega
      · rw [h2]; simp [batchStep, UrlAudit.isErr]; omega
      · rw [h3]; simp [batchStep, batchOutcomeResult]
      · rw [h4]; simp [batchStep]

/-- C1 counterexample: in the 3-URL batch with exactly one thrown audit the
final status is not `partiallyFailed` (that status exists nowhere in the
code; the finally block only ever chooses between `failed` and `completed`). -/
theorem c1_counterexample : (runBatch exBatch3).status ≠ "partiallyFailed" := by
  decide

/-- C1 (amended): the final status of a batch run is `failed` when every URL
failed and `completed` otherwise (there is no `partiallyFailed` status);
`completedUrls` counts every processed URL, `failedUrls` counts the thrown
ones, outcomes appear in input order — and the 3-URL run with exactly one
thrown audit ends `completed` with completedCount 3, failedCount 1 and its
3 outcomes in input order. -/
theorem c1_final_status :
    (∀ items : List (String × UrlAudit),
      (runBatch items).status =
        (if (runBatch items).failedUrls = (runBatch items).totalUrls
         then "failed" else "completed") ∧
      (runBatch items).totalUrls = items.length ∧
      (runBatch items).completedUrls = items.length ∧
      (runBatch items).failedUrls = (items.filter (fun x => x.2.isErr)).length ∧
      (runBatch items).results = items.map batchOutcomeResult) ∧
    ((runBatch exBatch3).status = "completed" ∧
     (runBatch exBatch3).completedUrls = 3 ∧
     (runBatch exBatch3).failedUrls = 1 ∧
     (runBatch exBatch3).results.map BatchResult.url =
       ["https://a.example", "https://b.example", "https://c.example"]) := by
  constructor
  · intro items
    obtain ⟨h1, h2, h3, h4⟩ :=
      batch_foldl_spec items (initBatchProgress (items.map Prod.fst))
    refine ⟨rfl, ?_, ?_, ?_, ?_⟩
    · show (items.foldl batchStep (initBatchProgress (items.map Prod.fst))).totalUrls = _
      rw [h4]; simp [initBatchProgress]
    · show (items.foldl batchStep (initBatchProgress (items.map Prod.fst))).completedUrls = _
      rw [h1]; simp [initBatchProgress]
    · show (items.foldl batchStep (initBatchProgress (items.map Prod.fst))).failedUrls = _
      rw [h2]; simp [initBatchProgress]
    · show (items.foldl batchStep (initBatchProgress (items.map Prod.fst))).results = _
      rw [h3]; simp [initBatchProgress]
  · exact ⟨by decide, by decide, by decide, by decide⟩

/-- The state visible after `i` processed URLs, in closed form. -/
theorem batchStateAfter_spec (items : List (String × UrlAudit)) (i : Nat) :
    (batchStateAfter items i).completedUrls = (items.take i).length ∧
    (batchStateAfter items i).failedUrls =
      ((items.take i).filter (fun x => x.2.isErr)).length ∧
    (batchStateAfter items i).results = (items.take i).map batchOutcomeResult ∧
    (batchStateAfter items i).totalUrls = items.length := by
  obtain ⟨h1, h2, h3, h4⟩ :=
    batch_foldl_spec (items.take i) (initBatchProgress (items.map Prod.fst))
  unfold batchStateAfter
  rw [h1, h2, h3, h4]
  simp [initBatchProgress]

/-- C6: at every observable point of a batch run the counters satisfy
`failedUrls ≤ completedUrls ≤ totalUrls`, both counters are monotonically
non-decreasing as the run progresses, the outcome list only ever grows (an
earlier snapshot is a prefix of a later one), outcomes appear in input
order, and the final report still satisfies the counter bounds. -/
theorem c6_run_invariants (items : List (String × UrlAudit)) (i j : Nat)
    (hij : i ≤ j) :
    (batchStateAfter items i).failedUrls ≤ (batchStateAfter items i).completedUrls ∧
    (batchStateAfter items i).completedUrls ≤ (batchStateAfter items i).totalUrls ∧
    (batchStateAfter items i).completedUrls ≤ (batchStateAfter items j).completedUrls ∧
    (batchStateAfter items i).failedUrls ≤ (batchStateAfter items j).failedUrls ∧
    (batchStateAfter items i).results <+: (batchStateAfter items j).results ∧
    (batchStateAfter items i).results = (items.take i).map batchOutcomeResult ∧
    (runBatch items).failedUrls ≤ (runBatch items).completedUrls ∧
    (runBatch items).completedUrls ≤ (runBatch items).totalUrls := by
  obtain ⟨hi1, hi2, hi3, hi4⟩ := batchStateAfter_spec items i
  obtain ⟨hj1, hj2, hj3, hj4⟩ := batchStateAfter_spec items j
  have htake : items.take i = (items.take j).take i := by
    rw [List.take_take, min_eq_left hij]
  have hpre : items.take i <+: items.take j := by
    rw [htake]; exact List.take_prefix i (items.take j)
  obtain ⟨hr1, hr2, hr3, hr4⟩ :=
    batch_foldl_spec items (initBatchProgress (items.map Prod.fst))
  have hrc : (runBatch items).completedUrls = items.length := by
    show (items.foldl batchStep (initBatchProgress (items.map Prod.fst))).completedUrls = _
    rw [hr1]; simp [initBatchProgress]
  have hrf : (runBatch items).failedUrls =
      (items.filter (fun x => x.2.isErr)).length := by
    show (items.foldl batchStep (initBatchProgress (items.map Prod.fst))).failedUrls = _
    rw [hr2]; simp [initBatchProgress]
  have hrt : (runBatch items).totalUrls = items.length := by
    show (items.foldl batchStep (initBatchProgress (items.map Prod.fst))).totalUrls = _
    rw [hr4]; simp [initBatchProgress]
  refine ⟨?_, ?_, ?_, ?_, ?_, hi3, ?_, ?_⟩
  · rw [hi1, hi2]; exact List.length_filter_le _ _
  · rw [hi1, hi4]; simp
  · rw [hi1, hj1]; exact hpre.length_le
  · rw [hi2, hj2]; exact ((hpre.sublist).filter _).length_le
  · rw [hi3, hj3]; exact hpre.map batchOutcomeResult
  · rw [hrc, hrf]; exact List.length_filter_le _ _
  · rw [hrc, hrt]

/-- Witness for C6 at the 3-URL batch, snapshots after 1 and 2 URLs. -/
theorem c6_run_invariants_witness :
    1 ≤ 2 ∧
    ((batchStateAfter exBatch3 1).failedUrls ≤ (batchStateAfter exBatch3 1).completedUrls ∧
     (batchStateAfter exBatch3 1).completedUrls ≤ (batchStateAfter exBatch3 1).totalUrls ∧
     (batchStateAfter exBatch3 1).completedUrls ≤ (batchStateAfter exBatch3 2).completedUrls ∧
     (batchStateAfter exBatch3 1).failedUrls ≤ (batchStateAfter exBatch3 2).failedUrls ∧
     (batchStateAfter exBatch3 1).results <+: (batchStateAfter exBatch3 2).results ∧
     (batchStateAfter exBatch3 1).results = (exBatch3.take 1).map batchOutcomeResult ∧
     (runBatch exBatch3).failedUrls ≤ (runBatch exBatch3).completedUrls ∧
     (runBatch exBatch3).completedUrls ≤ (runBatch exBatch3).totalUrls) :=
  ⟨by decide, c6_run_invariants exBatch3 1 2 (by decide)⟩

/-- The CI loop produces results for a prefix of the input URLs, in input
order. -/
theorem ciLoop_results_are_input_order (cfg : CiConfig)
    (items : List (String × UrlAudit)) :
    (ciLoop cfg items).map CiUrlResult.url =
      (items.take (ciLoop cfg items).length).map Prod.fst := by
  induction items with
  | nil => rfl
  | cons x xs ih =>
    obtain ⟨url, audit⟩ := x
    cases audit with
    | ok res =>
      by_cases hb : (!urlSuccessB cfg res && !cfg.continueOnFailure) = true
      · simp [ciLoop, hb, CiUrlResult.url]
      · simp only [ciLoop, hb, if_false, Bool.not_eq_true] at *
        simp [CiUrlResult.url, ih]
    | err msg =>
      by_cases hb : (!cfg.continueOnFailure) = true
      · simp [ciLoop, hb, CiUrlResult.url]
      · simp only [ciLoop, hb, if_false, Bool.not_eq_true] at *
        simp [CiUrlResult.url, ih]

/-- C5: with `continueOnFailure=false`, once the audit of URL `k` fails
(either by throwing or by exceeding the violation policy) no result is
produced for any later URL — at most `k+1` results exist, they correspond to
the first input URLs in order — while the response summary still reports the
original request size as `totalUrls`. -/
theorem c5_abort_on_failure (cfg : CiConfig) (items : List (String × UrlAudit))
    (k : Nat) (hk : k < items.length)
    (hcont : cfg.continueOnFailure = false)
    (hfail : auditFails cfg (items.get ⟨k, hk⟩).2 = true) :
    (ciLoop cfg items).length ≤ k + 1 ∧
    (ciLoop cfg items).map CiUrlResult.url =
      (items.take (ciLoop cfg items).length).map Prod.fst ∧
    (ciSummary items (ciLoop cfg items)).totalUrls = items.length := by
  refine ⟨?_, ciLoop_results_are_input_order cfg items, rfl⟩
  induction items generalizing k with
  | nil => exact absurd hk (by simp)
  | cons x xs ih =>
    obtain ⟨url, audit⟩ := x
    cases audit with
    | ok res =>
      by_cases hs : urlSuccessB cfg res = true
      · cases k with
        | zero =>
          simp [auditFails, hs] at hfail
        | succ m =>
          have hm : m < xs.length := by simpa using hk
          have hf : auditFails cfg (xs.get ⟨m, hm⟩).2 = true := by
            simpa using hfail
          have := ih m hm hf
          have hb : (!urlSuccessB cfg res && !cfg.continueOnFailure) = false := by
            simp [hs]
          simp only [ciLoop, hb, Bool.false_eq_true, if_false, List.length_cons]
          omega
      · have hb : (!urlSuccessB cfg res && !cfg.continueOnFailure) = true := by
          simp [hs, hcont]
        simp [ciLoop, hb]
    | err msg =>
      have hb : (!cfg.continueOnFailure) = true := by simp [hcont]
      simp [ciLoop, hb]

/-- Witness for C5: the example CI request fails its second URL under the
zero-tolerance policy and produces only two results for three URLs. -/
theorem c5_abort_on_failure_witness :
    1 < exCiItems.length ∧ exCiConfig.continueOnFailure = false ∧
    auditFails exCiConfig (exCiItems.get ⟨1, by decide⟩).2 = true ∧
    ((ciLoop exCiConfig exCiItems).length ≤ 1 + 1 ∧
     (ciLoop exCiConfig exCiItems).map CiUrlResult.url =
       (exCiItems.take (ciLoop exCiConfig exCiItems).length).map Prod.fst ∧
     (ciSummary exCiItems (ciLoop exCiConfig exCiItems)).totalUrls =
       exCiItems.length) :=
  ⟨by decide, by decide, by decide,
   c5_abort_on_failure exCiConfig exCiItems 1 (by decide) (by decide) (by decide)⟩

/-- Round-half-up of `100·p/t` is the integer `(200·p + t) / (2·t)`. -/
theorem jsRound_score_formula (p t : Nat) (ht : 0 < t) :
    jsRound (((p : ℚ) / (t : ℚ)) * 100) =
      (((200 * p + t) / (2 * t) : ℕ) : ℤ) := by
  have ht0 : (t : ℚ) ≠ 0 := by
    exact_mod_cast Nat.pos_iff_ne_zero.mp ht
  have key : ((p : ℚ) / (t : ℚ)) * 100 + 1 / 2 =
      (((200 * p + t : ℕ) : ℤ) : ℚ) / ((2 * t : ℕ) : ℚ) := by
    push_cast
    field_simp
    ring
  unfold jsRound
  rw [key, Rat.floor_intCast_div_natCast]
  rw [← Int.natCast_div]

/-- C7: the executive score equals round(100 × passes / totalRulesEvaluated)
— equivalently the exact integer `(200·passes + total) / (2·total)` — with
`totalRulesEvaluated` the sum of the four rule counts; the grade follows the
95/85/70 thresholds; and the score is invariant under reordering of the four
input sequences. -/
theorem c7_executive_score (r : AxeResults) (ht : 0 < totalRulesOf r) :
    (calculateSummaryStats r).score =
      jsRound (100 * (r.passes.length : ℚ) / (totalRulesOf r : ℚ)) ∧
    (calculateSummaryStats r).score =
      (((200 * r.passes.length + totalRulesOf r) / (2 * totalRulesOf r) : ℕ) : ℤ) ∧
    (95 ≤ (calculateSummaryStats r).score →
      (calculateSummaryStats r).grade = "Excellent") ∧
    (85 ≤ (calculateSummaryStats r).score ∧ (calculateSummaryStats r).score < 95 →
      (calculateSummaryStats r).grade = "Good") ∧
    (70 ≤ (calculateSummaryStats r).score ∧ (calculateSummaryStats r).score < 85 →
      (calculateSummaryStats r).grade = "Fair") ∧
    ((calculateSummaryStats r).score < 70 →
      (calculateSummaryStats r).grade = "Needs Improvement") ∧
    (∀ q : AxeResults, q.violations.Perm r.violations → q.passes.Perm r.passes →
      q.incomplete.Perm r.incomplete → q.inapplicable.Perm r.inapplicable →
      (calculateSummaryStats q).score = (calculateSummaryStats r).score) := by
  have hscore : (calculateSummaryStats r).score = scoreOf r := rfl
  have hgrade : (calculateSummaryStats r).grade = gradeOf (scoreOf r) := rfl
  have hs1 : scoreOf r =
      jsRound (((r.passes.length : ℚ) / (totalRulesOf r : ℚ)) * 100) := by
    simp [scoreOf, ht]
  refine ⟨?_, ?_, ?_, ?_, ?_, ?_, ?_⟩
  · rw [hscore, hs1]; congr 1; ring
  · rw [hscore, hs1]; exact jsRound_score_formula _ _ ht
  · intro h; rw [hgrade]; rw [hscore] at h
    unfold gradeOf; rw [if_pos h]
  · rintro ⟨h1, h2⟩; rw [hgrade]; rw [hscore] at h1 h2
    unfold gradeOf; rw [if_neg (by omega), if_pos h1]
  · rintro ⟨h1, h2⟩; rw [hgrade]; rw [hscore] at h1 h2
    unfold gradeOf; rw [if_neg (by omega), if_neg (by omega), if_pos h1]
  · intro h; rw [hgrade]; rw [hscore] at h
    unfold gradeOf; rw [if_neg (by omega), if_neg (by omega), if_neg (by omega)]
  · intro q hv hp hi hn
    have h1 : totalRulesOf q = totalRulesOf r := by
      unfold totalRulesOf
      rw [hv.length_eq, hp.length_eq, hi.length_eq, hn.length_eq]
    show scoreOf q = scoreOf r
    unfold scoreOf
    rw [h1, hp.length_eq]

/-- Witness for C7 at a result with 1 violation and 3 passes (score 75,
grade Fair). -/
theorem c7_executive_score_witness :
    0 < totalRulesOf exScore ∧
    ((calculateSummaryStats exScore).score =
       jsRound (100 * (exScore.passes.length : ℚ) / (totalRulesOf exScore : ℚ)) ∧
     (calculateSummaryStats exScore).score =
       (((200 * exScore.passes.length + totalRulesOf exScore) /
         (2 * totalRulesOf exScore) : ℕ) : ℤ) ∧
     (95 ≤ (calculateSummaryStats exScore).score →
       (calculateSummaryStats exScore).grade = "Excellent") ∧
     (85 ≤ (calculateSummaryStats exScore).score ∧
        (calculateSummaryStats exScore).score < 95 →
       (calculateSummaryStats exScore).grade = "Good") ∧
     (70 ≤ (calculateSummaryStats exScore).score ∧
        (calculateSummaryStats exScore).score < 85 →
       (calculateSummaryStats exScore).grade = "Fair") ∧
     ((calculateSummaryStats exScore).score < 70 →
       (calculateSummaryStats exScore).grade = "Needs Improvement") ∧
     (∀ q : AxeResults, q.violations.Perm exScore.violations →
       q.passes.Perm exScore.passes → q.incomplete.Perm exScore.incomplete →
       q.inapplicable.Perm exScore.inapplicable →
       (calculateSummaryStats q).score = (calculateSummaryStats exScore).score)) :=
  ⟨by decide, c7_executive_score exScore (by decide)⟩

/-- Soundness of the canonical grouping: every produced group is non-empty,
carries element infos and count derived from its member rows, all members
share the group key, and all members come from the input list. -/
theorem gAux_sound (l : List Row) :
    ∀ g ∈ gAux l,
      g.rows ≠ [] ∧
      g.elements = g.rows.map extractElementInfo ∧
      g.count = g.rows.length ∧
      (∀ r ∈ g.rows, extractFixInstructions r = g.fixInstructions) ∧
      (∀ r ∈ g.rows, r ∈ l) := by
  induction l using gAux.induct with
  | case1 => intro g hg; simp [gAux] at hg
  | case2 r rs ih =>
    intro g hg
    rw [gAux] at hg
    rcases List.mem_cons.mp hg with hg | hg
    · subst hg
      refine ⟨by simp [mkGroup], rfl, rfl, ?_, ?_⟩
      · intro x hx
        rcases List.mem_cons.mp hx with hx | hx
        · subst hx; rfl
        · have := List.mem_filter.mp hx
          simpa [mkGroup] using this.2
      · intro x hx
        rcases List.mem_cons.mp hx with hx | hx
        · subst hx; exact List.mem_cons_self _ _
        · exact List.mem_cons_of_mem _ (List.mem_of_mem_filter hx)
    · obtain ⟨h1, h2, h3, h4, h5⟩ := ih g hg
      exact ⟨h1, h2, h3, h4,
        fun x hx => List.mem_cons_of_mem _ (List.mem_of_mem_filter (h5 x hx))⟩

/-- Every group produced from rows whose key differs from `k` has a key
different from `k`. -/
theorem gAux_filter_key_ne (rs : List Row) (k : String) :
    ∀ g ∈ gAux (rs.filter (fun x => extractFixInstructions x != k)),
      g.fixInstructions ≠ k := by
  intro g hg
  obtain ⟨h1, _, _, h4, h5⟩ := gAux_sound _ g hg
  obtain ⟨x, hx⟩ := List.exists_mem_of_ne_nil g.rows h1
  have hk := h4 x hx
  have hmem := List.mem_filter.mp (h5 x hx)
  rw [← hk]
  simpa using hmem.2

/-- Inserting a row whose key differs from the head group's key leaves the
head group untouched. -/
theorem insertRowIntoGroups_cons_ne (g : ViolationGroup) (gs : List ViolationGroup)
    (row : Row) (h : g.fixInstructions ≠ extractFixInstructions row) :
    insertRowIntoGroups (g :: gs) row = g :: insertRowIntoGroups gs row := by
  have hb : (g.fixInstructions == extractFixInstructions row) = false := by
    simpa using h
  by_cases hany : gs.any (fun x => x.fixInstructions == extractFixInstructions row)
  · simp [insertRowIntoGroups, List.any_cons, hb, hany]
    exact fun hgf => absurd hgf h
  · simp [insertRowIntoGroups, List.any_cons, hb, hany]

/-- Appending one row to the input of the canonical grouping is exactly one
accumulator insertion step. -/
theorem gAux_append_singleton (row : Row) :
    ∀ l : List Row, gAux (l ++ [row]) = insertRowIntoGroups (gAux l) row := by
  intro l
  induction l using gAux.induct with
  | case1 =>
    simp [gAux, insertRowIntoGroups, mkGroup]
  | case2 r rs ih =>
    rw [List.cons_append, gAux, List.filter_append, List.filter_append]
    by_cases hk : extractFixInstructions row = extractFixInstructions r
    · have hf1 : [row].filter
          (fun x => extractFixInstructions x == extractFixInstructions r) = [row] := by
        simp [List.filter_cons, hk]
      have hf2 : [row].filter
          (fun x => extractFixInstructions x != extractFixInstructions r) = [] := by
        simp [List.filter_cons, hk]
      rw [hf1, hf2, List.append_nil]
      rw [gAux]
      conv_rhs => rw [insertRowIntoGroups]
      have hany : ((mkGroup (extractFixInstructions r)
          (r :: rs.filter (fun x => extractFixInstructions x == extractFixInstructions r)) ::
            gAux (rs.filter (fun x => extractFixInstructions x != extractFixInstructions r))).any
          (fun g => g.fixInstructions == extractFixInstructions row)) = true := by
        simp [List.any_cons, mkGroup, hk]
      rw [if_pos hany]
      rw [List.map_cons]
      have hupd : (if (mkGroup (extractFixInstructions r)
            (r :: rs.filter (fun x => extractFixInstructions x == extractFixInstructions r))).fixInstructions ==
              extractFixInstructions row then
          { mkGroup (extractFixInstructions r)
              (r :: rs.filter (fun x => extractFixInstructions x == extractFixInstructions r)) with
            rows := (mkGroup (extractFixInstructions r)
              (r :: rs.filter (fun x => extractFixInstructions x == extractFixInstructions r))).rows ++ [row]
            elements := (mkGroup (extractFixInstructions r)
              (r :: rs.filter (fun x => extractFixInstructions x == extractFixInstructions r))).elements ++
                [extractElementInfo row]
            count := (mkGroup (extractFixInstructions r)
              (r :: rs.filter (fun x => extractFixInstructions x == extractFixInstructions r))).count + 1 }
        else mkGroup (extractFixInstructions r)
            (r :: rs.filter (fun x => extractFixInstructions x == extractFixInstructions r))) =
          mkGroup (extractFixInstructions r)
            (r :: (rs.filter (fun x => extractFixInstructions x == extractFixInstructions r) ++ [row])) := by
        rw [if_pos (by simp [mkGroup, hk])]
        simp [mkGroup]
      rw [hupd]
      have hrest : (gAux (rs.filter
            (fun x => extractFixInstructions x != extractFixInstructions r))).map
          (fun g => if g.fixInstructions == extractFixInstructions row then
            { g with rows := g.rows ++ [row]
                     elements := g.elements ++ [extractElementInfo row]
                     count := g.count + 1 }
          else g) =
          gAux (rs.filter (fun x => extractFixInstructions x != extractFixInstructions r)) := by
        have hid : ∀ g ∈ gAux (rs.filter
            (fun x => extractFixInstructions x != extractFixInstructions r)),
            (fun g => if g.fixInstructions == extractFixInstructions row then
              { g with rows := g.rows ++ [row]
                       elements := g.elements ++ [extractElementInfo row]
                       count := g.count + 1 }
            else g) g = id g := by
          intro g hg
          have hne := gAux_filter_key_ne rs (extractFixInstructions r) g hg
          simp only [id_eq]
          rw [if_neg (by simp [hk]; exact hne)]
        rw [List.map_congr_left hid, List.map_id]
      rw [hrest]
    · have hf1 : [row].filter
          (fun x => extractFixInstructions x == extractFixInstructions r) = [] := by
        simp [List.filter_cons, hk]
      have hf2 : [row].filter
          (fun x => extractFixInstructions x != extractFixInstructions r) = [row] := by
        simp [List.filter_cons, hk]
      rw [hf1, hf2, List.append_nil, gAux, ih]
      rw [insertRowIntoGroups_cons_ne]
      simp [mkGroup]
      exact fun h => hk h.symm

/-- The accumulator-style grouping of the source equals the canonical
first-key grouping. -/
theorem groupSim_eq_gAux (rows : List Row) :
    groupSimilarViolations rows = gAux rows := by
  induction rows using List.reverseRecOn with
  | nil => simp [groupSimilarViolations, gAux]
  | append_singleton xs x ih =>
    rw [groupSimilarViolations, List.foldl_append, List.foldl_cons, List.foldl_nil]
    rw [show xs.foldl insertRowIntoGroups [] = groupSimilarViolations xs from rfl]
    rw [ih, ← gAux_append_singleton]

/-- Rows of the flattened grouping all come from the input list. -/
theorem mem_gAux_flatten {l : List Row} {x : Row}
    (hx : x ∈ ((gAux l).map ViolationGroup.rows).flatten) : x ∈ l := by
  rw [List.mem_flatten] at hx
  obtain ⟨rows, hrows, hxr⟩ := hx
  rw [List.mem_map] at hrows
  obtain ⟨g, hg, hgr⟩ := hrows
  exact (gAux_sound l g hg).2.2.2.2 x (hgr ▸ hxr)

/-- Canonical grouping is stable under regrouping its own flattened output. -/
theorem gAux_idem (rows : List Row) :
    gAux (((gAux rows).map ViolationGroup.rows).flatten) = gAux rows := by
  induction rows using gAux.induct with
  | case1 => simp [gAux]
  | case2 r rs ih =>
    rw [gAux, List.map_cons, List.flatten_cons]
    rw [show (mkGroup (extractFixInstructions r)
        (r :: rs.filter (fun x => extractFixInstructions x == extractFixInstructions r))).rows =
        r :: rs.filter (fun x => extractFixInstructions x == extractFixInstructions r) from rfl]
    rw [List.cons_append, gAux, List.filter_append, List.filter_append]
    have hsame1 : (rs.filter
        (fun x => extractFixInstructions x == extractFixInstructions r)).filter
        (fun x => extractFixInstructions x == extractFixInstructions r) =
        rs.filter (fun x => extractFixInstructions x == extractFixInstructions r) :=
      List.filter_eq_self.mpr fun a ha => (List.mem_filter.mp ha).2
    have hsame2 : (rs.filter
        (fun x => extractFixInstructions x == extractFixInstructions r)).filter
        (fun x => extractFixInstructions x != extractFixInstructions r) = [] := by
      refine List.filter_eq_nil_iff.mpr fun a ha => ?_
      have := (List.mem_filter.mp ha).2
      simp at this ⊢
      exact this
    have hflat1 : (((gAux (rs.filter
        (fun x => extractFixInstructions x != extractFixInstructions r))).map
          ViolationGroup.rows).flatten).filter
        (fun x => extractFixInstructions x == extractFixInstructions r) = [] := by
      refine List.filter_eq_nil_iff.mpr fun a ha => ?_
      have hmem := mem_gAux_flatten ha
      have := (List.mem_filter.mp hmem).2
      simp at this ⊢
      exact this
    have hflat2 : (((gAux (rs.filter
        (fun x => extractFixInstructions x != extractFixInstructions r))).map
          ViolationGroup.rows).flatten).filter
        (fun x => extractFixInstructions x != extractFixInstructions r) =
        ((gAux (rs.filter
          (fun x => extractFixInstructions x != extractFixInstructions r))).map
            ViolationGroup.rows).flatten := by
      refine List.filter_eq_self.mpr fun a ha => ?_
      have hmem := mem_gAux_flatten ha
      have := (List.mem_filter.mp hmem).2
      simpa using this
    rw [hsame1, hsame2, hflat1, hflat2, List.nil_append, List.append_nil, ih]

/-- C8: grouping is idempotent — regrouping the violation rows of an
already-consolidated outcome yields exactly the same groups, with the same
membership and the same counts. -/
theorem c8_grouping_idempotent (rows : List Row) :
    groupSimilarViolations (regroupInput rows) = groupSimilarViolations rows := by
  rw [regroupInput, groupSim_eq_gAux rows, groupSim_eq_gAux]
  exact gAux_idem rows

/-- C4: every group produced by the consolidation renders unmodified when its
total count is 1, and with exactly 3 example nodes plus a remainder of
`totalCount − 3` when its total count exceeds 3. -/
theorem c4_consolidated_rendering (rows : List Row) (g : ViolationGroup)
    (hg : g ∈ groupSimilarViolations rows) :
    (g.count = 1 → ∃ r, g.rows = [r] ∧ renderGroup g = RenderedRow.original r) ∧
    (3 < g.count →
      renderGroup g = RenderedRow.consolidated g.count (g.elements.take 3)
        (some ((g.count : Int) - 3)) g.fixInstructions ∧
      (g.elements.take 3).length = 3) := by
  rw [groupSim_eq_gAux] at hg
  obtain ⟨hne, helems, hcount, hkeys, hmem⟩ := gAux_sound rows g hg
  constructor
  · intro h1
    have hlen : g.rows.length = 1 := by omega
    obtain ⟨r, hr⟩ := List.length_eq_one.mp hlen
    refine ⟨r, hr, ?_⟩
    rw [renderGroup, if_pos h1, hr]
    rfl
  · intro h3
    have hlen : g.elements.length = g.rows.length := by rw [helems]; simp
    have hcne : g.count ≠ 1 := by omega
    constructor
    · rw [renderGroup, if_neg hcne]
      simp only [createConsolidatedRow]
      rw [if_pos (by omega : (0 : Int) < (g.count : Int) - 3)]
    · rw [List.length_take]
      omega

/-- Witness for C4 at the 4-member group of the example rows. -/
theorem c4_consolidated_rendering_witness :
    exGroup ∈ groupSimilarViolations exRows ∧
    ((exGroup.count = 1 →
        ∃ r, exGroup.rows = [r] ∧ renderGroup exGroup = RenderedRow.original r) ∧
     (3 < exGroup.count →
       renderGroup exGroup =
         RenderedRow.consolidated exGroup.count (exGroup.elements.take 3)
           (some ((exGroup.count : Int) - 3)) exGroup.fixInstructions ∧
       (exGroup.elements.take 3).length = 3)) :=
  ⟨by decide, c4_consolidated_rendering exRows exGroup (by decide)⟩
